import Mathlib

/-!
Verification development for the course-management application in
`src/main.py`.  The Python source is shallowly embedded: each handler
becomes a pure Lean function over an explicit state (the Redis-held
catalog, the set of S3 object keys, and an event trace), with the
nondeterminism of the external stores (Redis reachability, S3 upload /
head-object / delete outcomes, the random uuid suffix) supplied through
an explicit environment record.
-/

namespace CourseApp

/-- A plan record `{"name": ..., "filename": ...}`; `filename` is the S3
key of the attached PDF, or `none` when no file was attached. -/
structure Plan where
  name : String
  filename : Option String
deriving Repr, DecidableEq, Inhabited

/-- A course record `{"title": ..., "plans": [...]}`. -/
structure Course where
  title : String
  plans : List Plan
deriving Repr, DecidableEq, Inhabited

/-- The catalog: the full course list stored as one JSON value under the
fixed Redis key `"courses"`. -/
abbrev Catalog := List Course

/-- An error surfaced to the caller, `HTTPException(status_code)` in the
source. -/
inductive HErr where
  | http (status : Nat)
deriving Repr, DecidableEq

/-- A successful handler response (`RedirectResponse(url, status_code)`). -/
inductive Resp where
  | redirect (url : String) (status : Nat)
deriving Repr, DecidableEq

/- ## Filename sanitization (`sanitize_filename`, src/main.py lines 247-266) -/

/-- Characters kept by `re.sub(r'[^a-zA-Z0-9_-]', '', ...)`. -/
def legalChar (c : Char) : Bool :=
  ('a' ≤ c && c ≤ 'z') || ('A' ≤ c && c ≤ 'Z') || ('0' ≤ c && c ≤ '9') ||
    c = '_' || c = '-'

/-- The `stem.replace(' ', '_')` step: only the space character U+0020 is
replaced. -/
def spaceToUnderscore (l : List Char) : List Char :=
  l.map (fun c => if c = ' ' then '_' else c)

/-- What the spec's wording would require instead: every whitespace
character becomes an underscore. -/
def whitespaceToUnderscore (l : List Char) : List Char :=
  l.map (fun c => if c.isWhitespace then '_' else c)

/-- The `re.sub(r'_+', '_', stem)` step: collapse runs of underscores to a
single underscore. -/
def collapseUnd : List Char → List Char
  | [] => []
  | [c] => [c]
  | a :: b :: rest =>
    if a = '_' && b = '_' then collapseUnd (b :: rest)
    else a :: collapseUnd (b :: rest)

/-- The `.strip('_')` step: drop leading and trailing underscores. -/
def stripUnd (l : List Char) : List Char :=
  ((l.dropWhile (· = '_')).reverse.dropWhile (· = '_')).reverse

/-- Split a character list on `'/'` (the component structure a POSIX path
parser sees). -/
def splitSlash : List Char → List (List Char)
  | [] => [[]]
  | c :: rest =>
    if c = '/' then [] :: splitSlash rest
    else
      match splitSlash rest with
      | [] => [[c]]
      | g :: gs => (c :: g) :: gs

/-- Path components as `pathlib.PurePosixPath` parses them: split on `/`,
dropping empty components and `"."`. -/
def pathComponents (s : String) : List (List Char) :=
  (splitSlash s.toList).filter (fun g => g != [] && g != ['.'])

/-- `pathlib.Path(s).name`: the final path component (empty for an empty
path). -/
def pathBaseName (s : String) : List Char :=
  (pathComponents s).getLastD []

/-- Index of the last `'.'` in a character list (`str.rfind('.')` when it
succeeds). -/
def lastDotPos : List Char → Option Nat
  | [] => none
  | c :: rest =>
    match lastDotPos rest with
    | some i => some (i + 1)
    | none => if c = '.' then some 0 else none

/-- `pathlib.Path(s).stem`: the final component with its extension
removed; the extension exists only when the last dot is neither the first
nor the last character of the name. -/
def pathStem (s : String) : List Char :=
  match lastDotPos (pathBaseName s) with
  | some i =>
    if 0 < i ∧ i < (pathBaseName s).length - 1 then (pathBaseName s).take i
    else pathBaseName s
  | none => pathBaseName s

/-- `pathlib.Path(s).suffix`: the extension of the final component,
including the dot, or `""` when there is none. -/
def pathExt (s : String) : List Char :=
  match lastDotPos (pathBaseName s) with
  | some i =>
    if 0 < i ∧ i < (pathBaseName s).length - 1 then (pathBaseName s).drop i
    else []
  | none => []

/-- ASCII lower-casing of one character (`str.lower()` restricted to the
characters that can influence the `['.pdf']` membership test below). -/
def asciiLower (c : Char) : Char :=
  if 'A' ≤ c && c ≤ 'Z' then Char.ofNat (c.toNat + 32) else c

/-- The extension actually used by `sanitize_filename`: the lower-cased
original extension, replaced by `".pdf"` when empty or not in `['.pdf']`. -/
def forcedExt (filename : String) : List Char :=
  if (pathExt filename).map asciiLower = [] ∨
      (pathExt filename).map asciiLower ∉ [".pdf".toList] then ".pdf".toList
  else (pathExt filename).map asciiLower

/-- `sanitize_filename` from src/main.py (lines 247-266), with the random
6-hex-digit `uuid.uuid4().hex[:6]` suffix passed in as `uid`. -/
def sanitize_filename (filename : String) (uid : String) : String :=
  if filename = "" then "unnamed_file_" ++ uid ++ ".pdf"
  else
    let stem := (spaceToUnderscore (pathStem filename)).filter legalChar
    let stem := stripUnd (collapseUnd stem)
    let stem := if stem = [] then "file".toList else stem
    String.mk stem ++ "_" ++ uid ++ String.mk (forcedExt filename)

/-- The derivation exactly as claim C4 words it: the filename stem with
every whitespace character replaced by an underscore, characters outside
`[A-Za-z0-9_-]` stripped, underscores collapsed and trimmed, `"file"`
substituted when empty, then the random suffix and the `.pdf` extension. -/
def sanitizeClaimed (filename : String) (uid : String) : String :=
  String.mk
      ((fun s => if s = [] then "file".toList else s)
        (stripUnd (collapseUnd
          ((whitespaceToUnderscore (pathStem filename)).filter legalChar))))
    ++ "_" ++ uid ++ ".pdf"

/-- The claim amended no further than the counterexample forces: step (b)
replaces only spaces (other whitespace is stripped by step (c)), and an
empty original filename short-circuits to the stem `"unnamed_file"`. -/
def sanitizeAmended (filename : String) (uid : String) : String :=
  if filename = "" then "unnamed_file_" ++ uid ++ ".pdf"
  else
    String.mk
        ((fun s => if s = [] then "file".toList else s)
          (stripUnd (collapseUnd
            ((spaceToUnderscore (pathStem filename)).filter legalChar))))
      ++ "_" ++ uid ++ ".pdf"

theorem forcedExt_eq_pdf (filename : String) : forcedExt filename = ".pdf".toList := by
  unfold forcedExt
  split
  · rfl
  · rename_i h
    simp only [List.mem_singleton, not_or, not_not] at h
    exact h.2

/-- C4 (counterexample): the sanitization does not replace every
whitespace character with an underscore; a tab is stripped instead, so
`"a\tb.pdf"` yields stem `"ab"` where the claim's derivation yields
`"a_b"`. -/
theorem C4_whitespace_counterexample :
    sanitize_filename "a\tb.pdf" "abc123" ≠ sanitizeClaimed "a\tb.pdf" "abc123" ∧
    sanitize_filename "a\tb.pdf" "abc123" = "ab_abc123.pdf" ∧
    sanitizeClaimed "a\tb.pdf" "abc123" = "a_b_abc123.pdf" := by
  refine ⟨?_, ?_, ?_⟩ <;> decide

/-- C4 (amended): for every original filename the sanitization agrees with
the claim's derivation amended so that only spaces become underscores
(other whitespace is stripped with the other illegal characters) and an
empty filename falls back to the stem `"unnamed_file"`; the spec's two
examples evaluate as stated. -/
theorem C4_sanitize_amended :
    (∀ filename uid : String, sanitize_filename filename uid = sanitizeAmended filename uid) ∧
    sanitize_filename "My Plan?!.PDF" "abc123" = "My_Plan_abc123.pdf" ∧
    sanitize_filename "???.pdf" "abc123" = "file_abc123.pdf" := by
  refine ⟨fun filename uid => ?_, by decide, by decide⟩
  unfold sanitize_filename sanitizeAmended
  by_cases h : filename = ""
  · simp [h]
  · simp only [h, if_false, forcedExt_eq_pdf]
    rfl

/- ## Session store (`create_session`, `is_logged_in`, logout; src/main.py
lines 286-305 and 430-440) -/

/-- The Redis key-value view used for sessions: an association list in
which the most recent binding of a key wins (`setex` overwrites). -/
abbrev KV := List (String × String)

/-- Redis `get`. -/
def kvGet (store : KV) (k : String) : Option String :=
  (store.find? (fun e => e.1 == k)).map (·.2)

/-- Key under which a session token is stored: `f"session:{session_id}"`. -/
def sessionKey (sid : String) : String :=
  "session:" ++ sid

/-- `create_session` (lines 286-293): stores `"logged_in"` under the
session key with a one-hour TTL; a store error is caught and logged and
the fresh id is returned regardless (`setexOk` says whether the `setex`
call succeeded). -/
def create_session (setexOk : Bool) (store : KV) (sid : String) : KV × String :=
  if setexOk then ((sessionKey sid, "logged_in") :: store, sid)
  else (store, sid)

/-- `is_logged_in` (lines 295-305): false for a missing or falsy (empty)
cookie, otherwise true iff Redis holds `"logged_in"` under the session
key; any store error (`getOk = false`) is caught and yields false. -/
def is_logged_in (getOk : Bool) (store : KV) (session_id : Option String) : Bool :=
  match session_id with
  | none => false
  | some sid =>
    if sid = "" then false
    else if getOk then kvGet store (sessionKey sid) == some "logged_in"
    else false

/-- The session deletion performed by the `/logout` route (lines 430-440):
`redis_client.delete(f"session:{session_id}")`, errors caught and
logged. -/
def destroy_session (delOk : Bool) (store : KV) (sid : String) : KV :=
  if delOk then store.filter (fun e => e.1 != sessionKey sid) else store

theorem kvGet_insert (store : KV) (k v : String) :
    kvGet ((k, v) :: store) k = some v := by
  simp [kvGet, List.find?]

theorem kvGet_remove (store : KV) (k : String) :
    kvGet (store.filter (fun e => e.1 != k)) k = none := by
  have h1 : (store.filter (fun e : String × String => e.1 != k)).find?
      (fun e => e.1 == k) = none := by
    rw [List.find?_eq_none]
    intro x hx
    have hx' := List.of_mem_filter hx
    simp only [bne_iff_ne, ne_eq] at hx'
    simp [hx']
  simp [kvGet, h1]

/-- C7: session lifecycle.  When the underlying store calls succeed:
a token just issued by `create_session` is logged in; after the logout
deletion it is not; a token with no entry in the store was never created
and is not logged in.  Unconditionally: `is_logged_in` is true iff the
store lookup succeeded and the token maps to the sentinel `"logged_in"`,
any store error yields false (fail-closed), and a missing cookie yields
false. -/
theorem C7_session_lifecycle (store : KV) (sid : String) (g : Bool)
    (hsid : sid ≠ "") :
    is_logged_in true (create_session true store sid).1
        (some (create_session true store sid).2) = true ∧
    is_logged_in g (destroy_session true store sid) (some sid) = false ∧
    (kvGet store (sessionKey sid) = none →
      is_logged_in true store (some sid) = false) ∧
    (is_logged_in g store (some sid) = true ↔
      g = true ∧ kvGet store (sessionKey sid) = some "logged_in") ∧
    is_logged_in false store (some sid) = false ∧
    is_logged_in g store none = false := by
  refine ⟨?_, ?_, ?_, ?_, ?_, ?_⟩
  · simp [is_logged_in, create_session, hsid, kvGet_insert]
  · cases g <;> simp [is_logged_in, destroy_session, hsid, kvGet_remove]
  · intro hnone
    simp [is_logged_in, hsid, hnone]
  · cases g <;> simp [is_logged_in, hsid]
  · simp [is_logged_in, hsid]
  · simp [is_logged_in]

/-- C7 witness: the lifecycle at a concrete store and token. -/
theorem C7_session_lifecycle_witness :
    ("tok" ≠ "") ∧
    (is_logged_in true (create_session true [] "tok").1
        (some (create_session true [] "tok").2) = true ∧
      is_logged_in true (destroy_session true [] "tok") (some "tok") = false ∧
      (kvGet [] (sessionKey "tok") = none →
        is_logged_in true [] (some "tok") = false) ∧
      (is_logged_in true [] (some "tok") = true ↔
        true = true ∧ kvGet [] (sessionKey "tok") = some "logged_in") ∧
      is_logged_in false [] (some "tok") = false ∧
      is_logged_in true [] none = false) :=
  ⟨by decide, C7_session_lifecycle [] "tok" true (by decide)⟩

/- ## Store state, environment and the catalog handlers -/

/-- Observable store events: S3 object mutations and accesses, and the
single full-catalog Redis write performed by `save_courses`. -/
inductive Event where
  | s3Upload (key : String)
  | s3Delete (key : String)
  | s3Download (key : String)
  | catalogWrite (c : Catalog)
deriving Repr, DecidableEq

/-- The external state a handler can touch: the set of S3 object keys,
the catalog stored under the Redis key `"courses"`, and the trace of
store events performed so far. -/
structure St where
  blobs : List String
  catalog : Catalog
  events : List Event
deriving Repr, DecidableEq

/-- Environment of one request: outcomes of the external calls.
`redisGetOk`/`redisSetOk` say whether the Redis get/set succeed,
`uploadOk` whether `s3.upload_file` succeeds, `headOk i` whether the
`i`-th post-upload `head_object` verification attempt succeeds,
`deleteOk` whether `s3.delete_object` succeeds, and `suffix6` is the
random `uuid.uuid4().hex[:6]` suffix used by `sanitize_filename`. -/
structure Env where
  redisGetOk : Bool
  redisSetOk : Bool
  uploadOk : Bool
  headOk : Nat → Bool
  deleteOk : Bool
  suffix6 : String

/-- `get_courses` (lines 268-276): reads and parses the catalog; any
store error is caught and an empty list returned. -/
def get_courses (env : Env) (st : St) : Catalog :=
  if env.redisGetOk then st.catalog else []

/-- `save_courses` (lines 278-284): one full-catalog write; a store error
is translated to `HTTPException(500)`. -/
def save_courses (env : Env) (st : St) (c : Catalog) : Except HErr Unit × St :=
  if env.redisSetOk then
    (.ok (), { st with catalog := c, events := st.events ++ [.catalogWrite c] })
  else (.error (.http 500), st)

/-- `upload_to_s3` (lines 307-353): uploads the object, then verifies its
existence with `head_object`, retrying up to 3 attempts; any failure is
translated to `HTTPException(500)`.  (The local-file existence and
emptiness pre-checks are handled by the callers' models, which pass the
file's content size explicitly.) -/
def upload_to_s3 (env : Env) (st : St) (key : String) : Except HErr Unit × St :=
  if env.uploadOk then
    let st := { st with blobs := key :: st.blobs, events := st.events ++ [.s3Upload key] }
    if (List.range 3).any env.headOk then (.ok (), st)
    else (.error (.http 500), st)
  else (.error (.http 500), st)

/-- `delete_from_s3` (lines 386-403): a missing key is skipped and
treated as success; a remote failure is caught and reported as `false`;
no exception escapes. -/
def delete_from_s3 (env : Env) (st : St) (key : String) : Bool × St :=
  if key ∈ st.blobs then
    if env.deleteOk then
      (true, { st with blobs := st.blobs.erase key, events := st.events ++ [.s3Delete key] })
    else (false, st)
  else (true, st)

/-- A multipart upload as the handlers see it: the client-supplied name,
declared content type, and content size in bytes. -/
structure FileUpload where
  filename : String
  content_type : String
  size : Nat
deriving Repr, DecidableEq

/-- In-place update `courses[i]["title"] = t`. -/
def setTitleAt : Catalog → Nat → String → Catalog
  | [], _, _ => []
  | c :: cs, 0, t => { c with title := t } :: cs
  | c :: cs, n + 1, t => c :: setTitleAt cs n t

/-- In-place append `courses[i]["plans"].append(p)`. -/
def appendPlanAt : Catalog → Nat → Plan → Catalog
  | [], _, _ => []
  | c :: cs, 0, p => { c with plans := c.plans ++ [p] } :: cs
  | c :: cs, n + 1, p => c :: appendPlanAt cs n p

/-- In-place update `plans[j]["name"] = nm`. -/
def setNameIn : List Plan → Nat → String → List Plan
  | [], _, _ => []
  | p :: ps, 0, nm => { p with name := nm } :: ps
  | p :: ps, j + 1, nm => p :: setNameIn ps j nm

/-- In-place update `plans[j]["filename"] = f`. -/
def setFileIn : List Plan → Nat → Option String → List Plan
  | [], _, _ => []
  | p :: ps, 0, f => { p with filename := f } :: ps
  | p :: ps, j + 1, f => p :: setFileIn ps j f

/-- In-place update `courses[i]["plans"][j]["name"] = nm`. -/
def setPlanNameAt : Catalog → Nat → Nat → String → Catalog
  | [], _, _, _ => []
  | c :: cs, 0, j, nm => { c with plans := setNameIn c.plans j nm } :: cs
  | c :: cs, i + 1, j, nm => c :: setPlanNameAt cs i j nm

/-- In-place update `courses[i]["plans"][j]["filename"] = f`. -/
def setPlanFileAt : Catalog → Nat → Nat → Option String → Catalog
  | [], _, _, _ => []
  | c :: cs, 0, j, f => { c with plans := setFileIn c.plans j f } :: cs
  | c :: cs, i + 1, j, f => c :: setPlanFileAt cs i j f

/-- In-place removal `courses[i]["plans"].pop(j)`. -/
def removePlanAt : Catalog → Nat → Nat → Catalog
  | [], _, _ => []
  | c :: cs, 0, j => { c with plans := c.plans.eraseIdx j } :: cs
  | c :: cs, i + 1, j => c :: removePlanAt cs i j

/-- Lookup `courses[i]["plans"][j]`. -/
def getPlanAt (cs : Catalog) (i j : Nat) : Option Plan :=
  (cs[i]?).bind fun c => c.plans[j]?

/-- `len(courses[i]["plans"])` (only evaluated when `i` is in range). -/
def planCount (cs : Catalog) (i : Nat) : Nat :=
  ((cs[i]?).map (fun c => c.plans.length)).getD 0

/-- Common final step of every mutating handler: `save_courses(courses)`
followed by `RedirectResponse("/admin", 303)`; a save failure becomes
`wrap e` (the identity for the handlers that let the `HTTPException`
propagate, the constant 500 for the handlers whose catch-all re-raises it
as a fresh 500). -/
def saveTail (env : Env) (stX : St) (c : Catalog) (wrap : HErr → HErr) :
    Except HErr Resp × St :=
  match save_courses env stX c with
  | (.ok _, st') => (.ok (.redirect "/admin" 303), st')
  | (.error e, st') => (.error (wrap e), st')

/-- `add_course` (lines 442-447): append `{title, plans: []}` and write
the catalog back. -/
def add_course (env : Env) (st : St) (title : String) : Except HErr Resp × St :=
  let courses := get_courses env st
  saveTail env st (courses ++ [{ title := title, plans := [] }]) (fun e => e)

/-- `edit_course` (lines 449-456): replace the title at `course_index`,
or fail 404 when the index is out of the current bounds. -/
def edit_course (env : Env) (st : St) (course_index : Int) (title : String) :
    Except HErr Resp × St :=
  let courses := get_courses env st
  if 0 ≤ course_index ∧ course_index < (courses.length : Int) then
    saveTail env st (setTitleAt courses course_index.toNat title) (fun e => e)
  else (.error (.http 404), st)

/-- File pre-checks of `add_plan` (lines 463-484), run before the catalog
read: a non-PDF declared content type is a 400; a size above 10MB raises
`HTTPException(413)` inside the read try-block, which the surrounding
`except Exception` catches and re-raises as a 400. -/
def add_plan_checks (file : Option FileUpload) : Except HErr Unit :=
  match file with
  | none => .ok ()
  | some f =>
    if f.content_type ≠ "application/pdf" then .error (.http 400)
    else if f.size > 10 * 1024 * 1024 then .error (.http 400)
    else .ok ()

/-- Body of `add_plan` after the index check (lines 491-545).  Every
exception inside this `try` block — including the `HTTPException`s raised
by the empty-file check, `upload_to_s3` and `save_courses` — is caught by
the handler's `except Exception` and re-raised as a 500. -/
def add_plan_core (env : Env) (st : St) (course_index : Int) (name : String)
    (file : Option FileUpload) : Except HErr Resp × St :=
  let courses := get_courses env st
  let noFile : Except HErr Resp × St :=
    saveTail env st
      (appendPlanAt courses course_index.toNat { name := name, filename := none })
      (fun _ => .http 500)
  match file with
  | some f =>
    if f.filename ≠ "" then
      let key := sanitize_filename f.filename env.suffix6
      if f.size = 0 then (.error (.http 500), st)
      else
        match upload_to_s3 env st key with
        | (.ok _, st') =>
          saveTail env st'
            (appendPlanAt courses course_index.toNat { name := name, filename := some key })
            (fun _ => .http 500)
        | (.error _, st') => (.error (.http 500), st')
    else noFile
  | none => noFile

/-- `add_plan` (lines 458-548): file pre-checks, catalog read, index
bounds check (404 when out of range), then upload and one catalog
write. -/
def add_plan (env : Env) (st : St) (course_index : Int) (name : String)
    (file : Option FileUpload) : Except HErr Resp × St :=
  match add_plan_checks file with
  | .error e => (.error e, st)
  | .ok _ =>
    let courses := get_courses env st
    if 0 ≤ course_index ∧ course_index < (courses.length : Int) then
      add_plan_core env st course_index name file
    else (.error (.http 404), st)

/-- `edit_plan` (lines 550-609): bounds check first (404), then inside
one big `try`: update the name; when a replacement file is given, check
its type and size (the raised `HTTPException`s are caught by the
handler's `except Exception` and re-raised as 500), delete the old S3
object, upload the new one, record the new key; finally one catalog
write.  Every store failure inside the `try` surfaces as a 500. -/
def edit_plan (env : Env) (st : St) (course_index plan_index : Int) (name : String)
    (file : Option FileUpload) : Except HErr Resp × St :=
  let courses := get_courses env st
  if 0 ≤ course_index ∧ course_index < (courses.length : Int) ∧
      0 ≤ plan_index ∧ plan_index < (planCount courses course_index.toNat : Int) then
    let courses1 := setPlanNameAt courses course_index.toNat plan_index.toNat name
    let noFile : Except HErr Resp × St :=
      saveTail env st courses1 (fun _ => .http 500)
    match file with
    | some f =>
      if f.filename ≠ "" then
        if f.content_type ≠ "application/pdf" then (.error (.http 500), st)
        else if f.size > 10 * 1024 * 1024 then (.error (.http 500), st)
        else
          let st1 :=
            match (getPlanAt courses1 course_index.toNat plan_index.toNat).bind
                Plan.filename with
            | some oldKey => (delete_from_s3 env st oldKey).2
            | none => st
          let key := sanitize_filename f.filename env.suffix6
          match upload_to_s3 env st1 key with
          | (.ok _, st2) =>
            saveTail env st2
              (setPlanFileAt courses1 course_index.toNat plan_index.toNat (some key))
              (fun _ => .http 500)
          | (.error _, st2) => (.error (.http 500), st2)
      else noFile
    | none => noFile
  else (.error (.http 404), st)

/-- `delete_plan` (lines 706-726): bounds check (404), best-effort S3
delete of the plan's object (failures logged, never fatal), removal of
the plan, one catalog write. -/
def delete_plan (env : Env) (st : St) (course_index plan_index : Int) :
    Except HErr Resp × St :=
  let courses := get_courses env st
  if 0 ≤ course_index ∧ course_index < (courses.length : Int) ∧
      0 ≤ plan_index ∧ plan_index < (planCount courses course_index.toNat : Int) then
    let st1 :=
      match (getPlanAt courses course_index.toNat plan_index.toNat).bind
          Plan.filename with
      | some key => (delete_from_s3 env st key).2
      | none => st
    saveTail env st1 (removePlanAt courses course_index.toNat plan_index.toNat)
      (fun e => e)
  else (.error (.http 404), st)

/-- Best-effort deletion of every plan's blob, as the loop at lines
688-698 does (per-blob failures logged and skipped). -/
def deleteBlobsOf (env : Env) (st : St) : List Plan → St
  | [] => st
  | p :: ps =>
    match p.filename with
    | some key => deleteBlobsOf env (delete_from_s3 env st key).2 ps
    | none => deleteBlobsOf env st ps

/-- `delete_course` (lines 684-704): bounds check (404), best-effort S3
delete of every plan's object, removal of the course, one catalog
write. -/
def delete_course (env : Env) (st : St) (course_index : Int) :
    Except HErr Resp × St :=
  let courses := get_courses env st
  if 0 ≤ course_index ∧ course_index < (courses.length : Int) then
    let st1 := deleteBlobsOf env st
      (((courses[course_index.toNat]?).map Course.plans).getD [])
    saveTail env st1 (courses.eraseIdx course_index.toNat) (fun e => e)
  else (.error (.http 404), st)

/- ## Download endpoint and reorder operations -/

/-- Decide whether the list `p` starts the list `l`. -/
def leadsWith : List Char → List Char → Bool
  | [], _ => true
  | _ :: _, [] => false
  | a :: as, b :: bs => a == b && leadsWith as bs

/-- Decide whether `p` occurs as a contiguous substring of `l`
(Python's `p in l` on strings). -/
def occursIn (p : List Char) : List Char → Bool
  | [] => leadsWith p []
  | c :: rest => leadsWith p (c :: rest) || occursIn p rest

/-- The temporary directory used for streamed downloads (line 202). -/
def temp_dir : String := "/tmp"

/-- `download_pdf` (lines 611-682): reject an empty name or one
containing `".."` or `"/"` with a 400 before touching any store; then
form the local path `os.path.join(temp_dir, filename)` and stream the
object from S3 (a missing object or any storage failure surfaces as a
500).  The returned events are the blob/local accesses this request
performed. -/
def download_pdf (blobs : List String) (filename : String) :
    Except HErr String × List Event :=
  if filename == "" || occursIn ['.', '.'] filename.toList ||
      filename.toList.contains '/' then
    (.error (.http 400), [])
  else
    let temp_pdf_path := temp_dir ++ "/" ++ filename
    if filename ∈ blobs then (.ok temp_pdf_path, [.s3Download filename])
    else (.error (.http 500), [.s3Download filename])

/-- A local download path that stays inside the temporary directory: a
single nonempty component under `/tmp` that contains no separator and no
`".."`. -/
def WithinTempDir (path : String) : Prop :=
  ∃ nm, path = temp_dir ++ "/" ++ nm ∧ nm ≠ "" ∧
    nm.toList.contains '/' = false ∧ occursIn ['.', '.'] nm.toList = false

/-- Modelled from the spec: src/main.py contains no
`/update-course-order` or `/update-plan-order` route; §4.4 of the spec
describes the reorder core as: given an index permutation whose length
must exactly equal the current list length, rebuild the list in that
order, failing with a validation error on a length mismatch and applying
no partial reorder. -/
def reorderIdx {α : Type} [Inhabited α] (xs : List α) (perm : List Nat) :
    Except HErr (List α) :=
  if perm.length = xs.length then
    .ok (perm.map (fun k => xs.getD k default))
  else .error (.http 400)

/-- Modelled from the spec: the `POST /update-course-order` endpoint —
read the catalog, reorder the course list via `reorderIdx`, write the
catalog back only on success. -/
def update_course_order (env : Env) (st : St) (perm : List Nat) :
    Except HErr Resp × St :=
  let courses := get_courses env st
  match reorderIdx courses perm with
  | .error e => (.error e, st)
  | .ok courses' => saveTail env st courses' (fun e => e)

/-- In-place replacement `courses[i]["plans"] = ps`. -/
def setPlansAt : Catalog → Nat → List Plan → Catalog
  | [], _, _ => []
  | c :: cs, 0, ps => { c with plans := ps } :: cs
  | c :: cs, i + 1, ps => c :: setPlansAt cs i ps

/-- Modelled from the spec: the `POST /update-plan-order` endpoint —
reorder one course's plan list via `reorderIdx`, with the usual 404 on an
out-of-range course index, writing the catalog back only on success. -/
def update_plan_order (env : Env) (st : St) (course_index : Int)
    (perm : List Nat) : Except HErr Resp × St :=
  let courses := get_courses env st
  if 0 ≤ course_index ∧ course_index < (courses.length : Int) then
    match reorderIdx (((courses[course_index.toNat]?).map Course.plans).getD []) perm with
    | .error e => (.error e, st)
    | .ok plans' =>
      saveTail env st (setPlansAt courses course_index.toNat plans') (fun e => e)
  else (.error (.http 404), st)

/- ## Route-level wrapper for the missing session gate -/

/-- The `POST /add-course` route exactly as declared in the source (line
442): its parameter list contains only the form field `title`; no session
cookie is declared and `is_logged_in` is never called, so the handler
body runs identically for every request regardless of the session store
`sessions` and cookie `cookie` of the request. -/
def route_add_course (sessions : KV) (cookie : Option String)
    (env : Env) (st : St) (title : String) : Except HErr Resp × St :=
  add_course env st title

/- ## Concrete fixtures used by closed theorems and witnesses -/

/-- Environment in which every external call succeeds. -/
def envOk : Env :=
  { redisGetOk := true, redisSetOk := true, uploadOk := true,
    headOk := fun _ => true, deleteOk := true, suffix6 := "abc123" }

/-- Environment in which the Redis read fails but everything else
works. -/
def envGetFail : Env :=
  { envOk with redisGetOk := false }

/-- Empty initial state. -/
def st0 : St := { blobs := [], catalog := [], events := [] }

/-- State holding one course `"A"` with no plans. -/
def stA : St := { blobs := [], catalog := [{ title := "A", plans := [] }], events := [] }

/-- State holding one course `"A"` with one plan `"P"` whose file is the
S3 object `"old_k.pdf"`, which the blob store contains. -/
def stOld : St :=
  { blobs := ["old_k.pdf"],
    catalog := [{ title := "A", plans := [{ name := "P", filename := some "old_k.pdf" }] }],
    events := [] }

/- ## Write-once semantics (claim C2) -/

/-- Test for the full-catalog write event. -/
def isWriteEvent : Event → Bool
  | .catalogWrite _ => true
  | _ => false

/-- Number of full-catalog writes in a trace. -/
def writeCount (l : List Event) : Nat :=
  l.countP isWriteEvent

theorem writeCount_append (l m : List Event) :
    writeCount (l ++ m) = writeCount l + writeCount m :=
  List.countP_append _ _ _

/-- The amended failure semantics of one handler run `r` started from
state `st`: an error leaves the stored catalog untouched and performs no
catalog write, while a success implies the Redis write succeeded and the
run performed exactly one full-catalog write, as its final store event,
recording the final catalog. -/
def AbortsCleanly (env : Env) (st : St) (r : Except HErr Resp × St) : Prop :=
  (∀ e, r.1 = Except.error e →
      r.2.catalog = st.catalog ∧ writeCount r.2.events = writeCount st.events) ∧
  (∀ resp, r.1 = Except.ok resp →
      env.redisSetOk = true ∧
      writeCount r.2.events = writeCount st.events + 1 ∧
      r.2.events.getLast? = some (.catalogWrite r.2.catalog))

theorem error_aborts (env : Env) (st : St) (e : HErr) (stY : St)
    (hcat : stY.catalog = st.catalog)
    (hw : writeCount stY.events = writeCount st.events) :
    AbortsCleanly env st ((Except.error e, stY) : Except HErr Resp × St) :=
  ⟨fun _ _ => ⟨hcat, hw⟩, fun resp h => by cases h⟩

theorem writeCount_concat_write (l : List Event) (c : Catalog) :
    writeCount (l ++ [.catalogWrite c]) = writeCount l + 1 := by
  rw [writeCount_append]
  rfl

theorem saveTail_aborts (env : Env) (st stX : St) (c : Catalog) (wrap : HErr → HErr)
    (hcat : stX.catalog = st.catalog)
    (hw : writeCount stX.events = writeCount st.events) :
    AbortsCleanly env st (saveTail env stX c wrap) := by
  by_cases hset : env.redisSetOk = true
  · have hs : saveTail env stX c wrap =
        (.ok (.redirect "/admin" 303),
         { stX with catalog := c, events := stX.events ++ [.catalogWrite c] }) := by
      simp [saveTail, save_courses, hset]
    rw [hs]
    constructor
    · intro e h
      cases h
    · intro resp _
      refine ⟨hset, ?_, ?_⟩
      · simp [writeCount_concat_write, hw]
      · simp [List.getLast?_concat]
  · have hs : saveTail env stX c wrap = (.error (wrap (.http 500)), stX) := by
      simp [saveTail, save_courses, hset]
    rw [hs]
    exact ⟨fun _ _ => ⟨hcat, hw⟩, fun resp h => by cases h⟩

theorem upload_to_s3_frame (env : Env) (st : St) (key : String) :
    (upload_to_s3 env st key).2.catalog = st.catalog ∧
    writeCount (upload_to_s3 env st key).2.events = writeCount st.events := by
  by_cases hu : env.uploadOk = true
  · by_cases hh : (List.range 3).any env.headOk = true <;>
      simp [upload_to_s3, hu, hh, writeCount_append, writeCount, isWriteEvent]
  · simp [upload_to_s3, hu]

theorem delete_from_s3_frame (env : Env) (st : St) (key : String) :
    (delete_from_s3 env st key).2.catalog = st.catalog ∧
    writeCount (delete_from_s3 env st key).2.events = writeCount st.events := by
  unfold delete_from_s3
  split
  · split
    · simp [writeCount_append, writeCount, isWriteEvent]
    · exact ⟨rfl, rfl⟩
  · exact ⟨rfl, rfl⟩

theorem deleteBlobsOf_frame (env : Env) (ps : List Plan) (st : St) :
    (deleteBlobsOf env st ps).catalog = st.catalog ∧
    writeCount (deleteBlobsOf env st ps).events = writeCount st.events := by
  induction ps generalizing st with
  | nil => exact ⟨rfl, rfl⟩
  | cons p ps ih =>
    cases hp : p.filename with
    | none => simpa [deleteBlobsOf, hp] using ih st
    | some key =>
      have h1 := delete_from_s3_frame env st key
      have h2 := ih ((delete_from_s3 env st key).2)
      simp only [deleteBlobsOf, hp]
      exact ⟨h2.1.trans h1.1, h2.2.trans h1.2⟩

theorem add_course_aborts (env : Env) (st : St) (t : String) :
    AbortsCleanly env st (add_course env st t) :=
  saveTail_aborts env st st _ _ rfl rfl

theorem edit_course_aborts (env : Env) (st : St) (i : Int) (t : String) :
    AbortsCleanly env st (edit_course env st i t) := by
  simp only [edit_course]
  split
  · exact saveTail_aborts env st st _ _ rfl rfl
  · exact error_aborts env st _ st rfl rfl

theorem add_plan_aborts (env : Env) (st : St) (i : Int) (nm : String)
    (file : Option FileUpload) :
    AbortsCleanly env st (add_plan env st i nm file) := by
  simp only [add_plan]
  split
  · exact error_aborts env st _ st rfl rfl
  · split
    · simp only [add_plan_core]
      cases file with
      | none => exact saveTail_aborts env st st _ _ rfl rfl
      | some f =>
        dsimp only
        by_cases hf : f.filename ≠ ""
        · rw [if_pos hf]
          by_cases hz : f.size = 0
          · rw [if_pos hz]
            exact error_aborts env st _ st rfl rfl
          · rw [if_neg hz]
            rcases hu : upload_to_s3 env st (sanitize_filename f.filename env.suffix6) with
              ⟨res, st'⟩
            have hfr := upload_to_s3_frame env st (sanitize_filename f.filename env.suffix6)
            rw [hu] at hfr
            cases res with
            | ok u => exact saveTail_aborts env st st' _ _ hfr.1 hfr.2
            | error e => exact error_aborts env st _ st' hfr.1 hfr.2
        · rw [if_neg hf]
          exact saveTail_aborts env st st _ _ rfl rfl
    · exact error_aborts env st _ st rfl rfl

theorem edit_plan_aborts (env : Env) (st : St) (i j : Int) (nm : String)
    (file : Option FileUpload) :
    AbortsCleanly env st (edit_plan env st i j nm file) := by
  simp only [edit_plan]
  split
  · cases file with
    | none => exact saveTail_aborts env st st _ _ rfl rfl
    | some f =>
      dsimp only
      by_cases hf : f.filename ≠ ""
      · rw [if_pos hf]
        by_cases hct : f.content_type ≠ "application/pdf"
        · rw [if_pos hct]
          exact error_aborts env st _ st rfl rfl
        · rw [if_neg hct]
          by_cases hsz : f.size > 10 * 1024 * 1024
          · rw [if_pos hsz]
            exact error_aborts env st _ st rfl rfl
          · rw [if_neg hsz]
            rcases hold : (getPlanAt (setPlanNameAt (get_courses env st) i.toNat j.toNat nm)
                i.toNat j.toNat).bind Plan.filename with _ | oldKey
            · rcases hu : upload_to_s3 env st (sanitize_filename f.filename env.suffix6) with
                ⟨res, st2⟩
              have hfr := upload_to_s3_frame env st (sanitize_filename f.filename env.suffix6)
              rw [hu] at hfr
              cases res with
              | ok u => exact saveTail_aborts env st st2 _ _ hfr.1 hfr.2
              | error e => exact error_aborts env st _ st2 hfr.1 hfr.2
            · have h1 := delete_from_s3_frame env st oldKey
              rcases hu : upload_to_s3 env ((delete_from_s3 env st oldKey).2)
                  (sanitize_filename f.filename env.suffix6) with ⟨res, st2⟩
              have hfr := upload_to_s3_frame env ((delete_from_s3 env st oldKey).2)
                (sanitize_filename f.filename env.suffix6)
              rw [hu] at hfr
              cases res with
              | ok u =>
                exact saveTail_aborts env st st2 _ _ (hfr.1.trans h1.1) (hfr.2.trans h1.2)
              | error e =>
                exact error_aborts env st _ st2 (hfr.1.trans h1.1) (hfr.2.trans h1.2)
      · rw [if_neg hf]
        exact saveTail_aborts env st st _ _ rfl rfl
  · exact error_aborts env st _ st rfl rfl

theorem delete_plan_aborts (env : Env) (st : St) (i j : Int) :
    AbortsCleanly env st (delete_plan env st i j) := by
  simp only [delete_plan]
  split
  · rcases hold : (getPlanAt (get_courses env st) i.toNat j.toNat).bind Plan.filename with
      _ | key
    · exact saveTail_aborts env st st _ _ rfl rfl
    · have h1 := delete_from_s3_frame env st key
      exact saveTail_aborts env st _ _ _ h1.1 h1.2
  · exact error_aborts env st _ st rfl rfl

theorem delete_course_aborts (env : Env) (st : St) (i : Int) :
    AbortsCleanly env st (delete_course env st i) := by
  simp only [delete_course]
  split
  · have h1 := deleteBlobsOf_frame env
      ((((get_courses env st)[i.toNat]?).map Course.plans).getD []) st
    exact saveTail_aborts env st _ _ _ h1.1 h1.2
  · exact error_aborts env st _ st rfl rfl

/- ## Claim theorems C1, C2, C3 -/

/-- Environment in which S3 deletion fails but everything else works. -/
def envDelFail : Env := { envOk with deleteOk := false }

/-- Environment in which the S3 upload fails but everything else works. -/
def envUpFail : Env := { envOk with uploadOk := false }

theorem upload_to_s3_fails (env : Env) (st : St) (key : String)
    (h : env.uploadOk = false ∨ (List.range 3).all (fun k => !env.headOk k) = true) :
    (upload_to_s3 env st key).1 = Except.error (.http 500) := by
  have hcases : env.uploadOk = false ∨ ((List.range 3).any env.headOk) = false := by
    rcases h with h | h
    · exact Or.inl h
    · right
      rw [List.all_eq_true] at h
      rw [Bool.eq_false_iff, ne_eq, List.any_eq_true]
      rintro ⟨x, hx, hpx⟩
      have := h x hx
      simp [hpx] at this
  rcases hcases with h | h
  · simp [upload_to_s3, h]
  · by_cases hu : env.uploadOk = true
    · simp [upload_to_s3, hu, h]
    · simp [upload_to_s3, hu]

theorem add_plan_upload_error_aborts (env : Env) (st : St) (i : Int)
    (nm : String) (f : FileUpload) (hf : f.filename ≠ "")
    (h : env.uploadOk = false ∨ (List.range 3).all (fun k => !env.headOk k) = true) :
    ∃ e, (add_plan env st i nm (some f)).1 = Except.error e := by
  rcases hchk : add_plan_checks (some f) with e | u
  · exact ⟨e, by simp [add_plan, hchk]⟩
  · by_cases hb : 0 ≤ i ∧ i < ((get_courses env st).length : Int)
    · by_cases hz : f.size = 0
      · exact ⟨.http 500, by simp [add_plan, add_plan_core, hchk, hb, hf, hz]⟩
      · rcases hu : upload_to_s3 env st (sanitize_filename f.filename env.suffix6) with
          ⟨res, st'⟩
        have hres : res = Except.error (.http 500) := by
          have h2 := upload_to_s3_fails env st (sanitize_filename f.filename env.suffix6) h
          rw [hu] at h2
          exact h2
        subst hres
        exact ⟨.http 500, by simp [add_plan, add_plan_core, hchk, hb, hf, hz, hu]⟩
    · exact ⟨.http 404, by simp [add_plan, hchk, hb]⟩

theorem edit_plan_upload_error_aborts (env : Env) (st : St) (i j : Int)
    (nm : String) (f : FileUpload) (hf : f.filename ≠ "")
    (h : env.uploadOk = false ∨ (List.range 3).all (fun k => !env.headOk k) = true) :
    ∃ e, (edit_plan env st i j nm (some f)).1 = Except.error e := by
  by_cases hb : 0 ≤ i ∧ i < ((get_courses env st).length : Int) ∧ 0 ≤ j ∧
      j < (planCount (get_courses env st) i.toNat : Int)
  · by_cases hct : f.content_type ≠ "application/pdf"
    · exact ⟨.http 500, by simp [edit_plan, hb, hf, hct]⟩
    · by_cases hsz : f.size > 10 * 1024 * 1024
      · exact ⟨.http 500, by simp [edit_plan, hb, hf, hct, hsz]⟩
      · rcases hold : (getPlanAt (setPlanNameAt (get_courses env st) i.toNat j.toNat nm)
            i.toNat j.toNat).bind Plan.filename with _ | oldKey
        · rcases hu : upload_to_s3 env st (sanitize_filename f.filename env.suffix6) with
            ⟨res, st2⟩
          have hres : res = Except.error (.http 500) := by
            have h2 := upload_to_s3_fails env st (sanitize_filename f.filename env.suffix6) h
            rw [hu] at h2
            exact h2
          subst hres
          exact ⟨.http 500,
            by simp [edit_plan, hb, hf, hct, hsz, hold, hu]⟩
        · rcases hu : upload_to_s3 env ((delete_from_s3 env st oldKey).2)
              (sanitize_filename f.filename env.suffix6) with ⟨res, st2⟩
          have hres : res = Except.error (.http 500) := by
            have h2 := upload_to_s3_fails env ((delete_from_s3 env st oldKey).2)
              (sanitize_filename f.filename env.suffix6) h
            rw [hu] at h2
            exact h2
          subst hres
          exact ⟨.http 500,
            by simp [edit_plan, hb, hf, hct, hsz, hold, hu]⟩
  · exact ⟨.http 404, by simp [edit_plan, hb]⟩

/-- C1 (code evaluated at the failing input): the `POST /add-course`
handler declares no session parameter and never consults `is_logged_in`,
so a request carrying no session cookie against an empty session store —
for which `is_logged_in` is false — still appends the course and writes
the catalog, returning the success redirect instead of an authorization
failure. -/
theorem C1_mutation_without_session :
    is_logged_in true [] none = false ∧
    route_add_course [] none envOk st0 "Algebra" =
      (Except.ok (.redirect "/admin" 303),
       { blobs := [],
         catalog := [{ title := "Algebra", plans := [] }],
         events := [.catalogWrite [{ title := "Algebra", plans := [] }]] }) :=
  ⟨rfl, rfl⟩

theorem saveTail_fst_ok (env : Env) (stX : St) (c : Catalog) (wrap : HErr → HErr)
    (hset : env.redisSetOk = true) :
    (saveTail env stX c wrap).1 = Except.ok (.redirect "/admin" 303) := by
  simp [saveTail, save_courses, hset]

/-- C2 (counterexample to the claim as stated): with the catalog-store
read failing, `add_course` does not abort with a server error — the read
error is swallowed, the handler proceeds on an empty list, returns the
success redirect, and clobbers the stored catalog (course `"A"` is
lost). -/
theorem C2_read_error_swallowed :
    envGetFail.redisGetOk = false ∧
    (add_course envGetFail stA "B").1 = Except.ok (.redirect "/admin" 303) ∧
    (add_course envGetFail stA "B").2.catalog = [{ title := "B", plans := [] }] :=
  ⟨rfl, rfl, rfl⟩

/-- C2 (amended): catalog-write errors abort the operation with an
error, a blob-store upload failure — the upload call failing or all 3
verification attempts failing — aborts `add_plan` and `edit_plan` with
an error whenever a file is being stored, and every mutating operation
satisfies the write-once discipline — an error leaves the stored catalog
untouched with no catalog write performed, while a success performs
exactly one full-catalog write, as its final store event, recording the
final catalog.  However, a catalog-store READ error is swallowed
(`get_courses` returns the empty list and the operation proceeds,
returning success), and blob-store DELETE failures are logged and
skipped rather than aborting. -/
theorem C2_write_once_semantics :
    (∀ (env : Env) (st : St) (t : String),
      AbortsCleanly env st (add_course env st t)) ∧
    (∀ (env : Env) (st : St) (i : Int) (t : String),
      AbortsCleanly env st (edit_course env st i t)) ∧
    (∀ (env : Env) (st : St) (i : Int) (nm : String) (file : Option FileUpload),
      AbortsCleanly env st (add_plan env st i nm file)) ∧
    (∀ (env : Env) (st : St) (i j : Int) (nm : String) (file : Option FileUpload),
      AbortsCleanly env st (edit_plan env st i j nm file)) ∧
    (∀ (env : Env) (st : St) (i j : Int),
      AbortsCleanly env st (delete_plan env st i j)) ∧
    (∀ (env : Env) (st : St) (i : Int),
      AbortsCleanly env st (delete_course env st i)) ∧
    (∀ (env : Env) (st : St) (t : String),
      env.redisGetOk = false → env.redisSetOk = true →
      (add_course env st t).1 = Except.ok (.redirect "/admin" 303) ∧
      (add_course env st t).2.catalog = [{ title := t, plans := [] }]) ∧
    (∀ (env : Env) (st : St) (i j : Int),
      env.deleteOk = false → env.redisSetOk = true →
      (0 ≤ i ∧ i < ((get_courses env st).length : Int) ∧ 0 ≤ j ∧
        j < (planCount (get_courses env st) i.toNat : Int)) →
      (delete_plan env st i j).1 = Except.ok (.redirect "/admin" 303)) ∧
    (∀ (env : Env) (st : St) (i : Int) (nm : String) (f : FileUpload),
      f.filename ≠ "" →
      (env.uploadOk = false ∨ (List.range 3).all (fun k => !env.headOk k) = true) →
      ∃ e, (add_plan env st i nm (some f)).1 = Except.error e) ∧
    (∀ (env : Env) (st : St) (i j : Int) (nm : String) (f : FileUpload),
      f.filename ≠ "" →
      (env.uploadOk = false ∨ (List.range 3).all (fun k => !env.headOk k) = true) →
      ∃ e, (edit_plan env st i j nm (some f)).1 = Except.error e) := by
  refine ⟨add_course_aborts, edit_course_aborts, add_plan_aborts, edit_plan_aborts,
    delete_plan_aborts, delete_course_aborts, ?_, ?_,
    add_plan_upload_error_aborts, edit_plan_upload_error_aborts⟩
  · intro env st t hget hset
    constructor
    · simp [add_course, get_courses, saveTail, save_courses, hget, hset]
    · simp [add_course, get_courses, saveTail, save_courses, hget, hset]
  · intro env st i j _ hset hb
    simp only [delete_plan]
    rw [if_pos hb]
    rcases (getPlanAt (get_courses env st) i.toNat j.toNat).bind Plan.filename with
      _ | key
    · exact saveTail_fst_ok env st _ _ hset
    · exact saveTail_fst_ok env _ _ _ hset

/-- C2 witness: the write-once discipline and the amended error behavior
evaluated at concrete inputs. -/
theorem C2_write_once_semantics_witness :
    (envOk.redisSetOk = true ∧
      writeCount (add_course envOk st0 "A").2.events = writeCount st0.events + 1 ∧
      (add_course envOk st0 "A").2.events.getLast? =
        some (.catalogWrite (add_course envOk st0 "A").2.catalog)) ∧
    ((add_course envGetFail stA "B").1 = Except.ok (.redirect "/admin" 303) ∧
      (add_course envGetFail stA "B").2.catalog = [{ title := "B", plans := [] }]) ∧
    (delete_plan envDelFail stOld 0 0).1 = Except.ok (.redirect "/admin" 303) ∧
    (∃ e, (add_plan envUpFail stA 0 "W1"
      (some { filename := "new.pdf", content_type := "application/pdf",
              size := 100 })).1 = Except.error e) ∧
    (∃ e, (edit_plan envUpFail stOld 0 0 "P2"
      (some { filename := "new.pdf", content_type := "application/pdf",
              size := 100 })).1 = Except.error e) :=
  ⟨(C2_write_once_semantics.1 envOk st0 "A").2 (.redirect "/admin" 303) rfl,
   C2_write_once_semantics.2.2.2.2.2.2.1 envGetFail stA "B" rfl rfl,
   C2_write_once_semantics.2.2.2.2.2.2.2.1 envDelFail stOld 0 0 rfl rfl (by decide),
   C2_write_once_semantics.2.2.2.2.2.2.2.2.1 envUpFail stA 0 "W1"
     { filename := "new.pdf", content_type := "application/pdf", size := 100 }
     (by decide) (Or.inl rfl),
   C2_write_once_semantics.2.2.2.2.2.2.2.2.2 envUpFail stOld 0 0 "P2"
     { filename := "new.pdf", content_type := "application/pdf", size := 100 }
     (by decide) (Or.inl rfl)⟩

/-- C3 (code evaluated at the failing input): in `edit_plan` with a
replacement file, the OLD object is deleted first — before the new
object is uploaded and before the catalog write records the new key —
as the resulting event trace shows: `s3Delete "old_k.pdf"` is the first
event, preceding both `s3Upload` and `catalogWrite`.  The claim's
ordering (upload new, write catalog, only then delete old) is the
opposite of what the code does. -/
theorem C3_old_deleted_before_upload_and_write :
    edit_plan envOk stOld 0 0 "P2"
        (some { filename := "new.pdf", content_type := "application/pdf", size := 100 }) =
      (Except.ok (.redirect "/admin" 303),
       { blobs := ["new_abc123.pdf"],
         catalog :=
           [{ title := "A",
              plans := [{ name := "P2", filename := some "new_abc123.pdf" }] }],
         events :=
           [.s3Delete "old_k.pdf",
            .s3Upload "new_abc123.pdf",
            .catalogWrite
              [{ title := "A",
                 plans := [{ name := "P2", filename := some "new_abc123.pdf" }] }]] }) :=
  rfl

/- ## Claim C5: out-of-range indices -/

/-- C5 (counterexample to the claim as stated): an out-of-range index
(5 against a one-course catalog) submitted together with a non-PDF file
makes `add_plan` return the 400 validation error, not the claimed 404
not-found — the source runs the file pre-checks (lines 463-484) before
the index bounds check (line 491).  The state is still unchanged. -/
theorem C5_validation_shadows_not_found :
    ¬((0 : Int) ≤ 5 ∧ (5 : Int) < ((get_courses envOk stA).length : Int)) ∧
    add_plan envOk stA 5 "N"
        (some { filename := "f.pdf", content_type := "text/plain", size := 10 }) =
      (Except.error (.http 400), stA) ∧
    HErr.http 400 ≠ HErr.http 404 :=
  ⟨by decide, rfl, by decide⟩

/-- C5 (amended): for any out-of-range course or plan index,
`edit_course`, `edit_plan`, `delete_plan` and `delete_course` return the
404 not-found error with the entire state — stored catalog, blob store
and event trace — returned byte-for-byte unchanged; `add_plan` does too
whenever its file pre-checks (content type and size, which the source
runs before the index check) pass, while a request whose pre-checks fail
returns that validation error instead — again with the state entirely
unchanged, so no out-of-range request ever mutates anything. -/
theorem C5_out_of_range_not_found (env : Env) (st : St) (i j : Int)
    (t nm : String) (file : Option FileUpload) :
    (¬(0 ≤ i ∧ i < ((get_courses env st).length : Int)) →
      edit_course env st i t = (Except.error (.http 404), st) ∧
      (add_plan_checks file = Except.ok () →
        add_plan env st i nm file = (Except.error (.http 404), st)) ∧
      delete_course env st i = (Except.error (.http 404), st)) ∧
    (¬(0 ≤ i ∧ i < ((get_courses env st).length : Int) ∧ 0 ≤ j ∧
        j < (planCount (get_courses env st) i.toNat : Int)) →
      edit_plan env st i j nm file = (Except.error (.http 404), st) ∧
      delete_plan env st i j = (Except.error (.http 404), st)) ∧
    (∀ e, add_plan_checks file = Except.error e →
      add_plan env st i nm file = (Except.error e, st)) := by
  refine ⟨?_, ?_, ?_⟩
  · intro hc
    refine ⟨?_, ?_, ?_⟩
    · simp only [edit_course]
      rw [if_neg hc]
    · intro hchk
      simp only [add_plan, hchk]
      rw [if_neg hc]
    · simp only [delete_course]
      rw [if_neg hc]
  · intro hp
    constructor
    · simp only [edit_plan]
      rw [if_neg hp]
    · simp only [delete_plan]
      rw [if_neg hp]
  · intro e hchk
    simp [add_plan, hchk]

/-- C5 witness: index 5 against a one-course catalog with no plans, both
without a file (pre-checks pass) and with a non-PDF file (pre-checks
fail, 400, state unchanged). -/
theorem C5_out_of_range_not_found_witness :
    (edit_course envOk stA 5 "T" = (Except.error (.http 404), stA) ∧
      (add_plan_checks none = Except.ok () →
        add_plan envOk stA 5 "N" none = (Except.error (.http 404), stA)) ∧
      delete_course envOk stA 5 = (Except.error (.http 404), stA)) ∧
    (edit_plan envOk stA 5 0 "N" none = (Except.error (.http 404), stA) ∧
      delete_plan envOk stA 5 0 = (Except.error (.http 404), stA)) ∧
    add_plan envOk stA 5 "N"
        (some { filename := "f.pdf", content_type := "text/plain", size := 10 }) =
      (Except.error (.http 400), stA) :=
  ⟨(C5_out_of_range_not_found envOk stA 5 0 "T" "N" none).1 (by decide),
   (C5_out_of_range_not_found envOk stA 5 0 "T" "N" none).2.1 (by decide),
   (C5_out_of_range_not_found envOk stA 5 0 "T" "N"
     (some { filename := "f.pdf", content_type := "text/plain", size := 10 })).2.2
     (.http 400) rfl⟩

/- ## Claim C8: edit_course frame property -/

theorem setTitleAt_length (l : Catalog) (i : Nat) (t : String) :
    (setTitleAt l i t).length = l.length := by
  induction l generalizing i with
  | nil => rfl
  | cons c cs ih =>
    cases i with
    | zero => rfl
    | succ n => simpa [setTitleAt] using ih n

theorem setTitleAt_getElem_ne (l : Catalog) (i : Nat) (t : String) (j : Nat)
    (hj : j ≠ i) : (setTitleAt l i t)[j]? = l[j]? := by
  induction l generalizing i j with
  | nil => rfl
  | cons c cs ih =>
    cases i with
    | zero =>
      cases j with
      | zero => exact absurd rfl hj
      | succ m => simp [setTitleAt]
    | succ n =>
      cases j with
      | zero => simp [setTitleAt]
      | succ m => simpa [setTitleAt] using ih n m (by omega)

theorem setTitleAt_getElem_self (l : Catalog) (i : Nat) (t : String)
    (hi : i < l.length) :
    (setTitleAt l i t)[i]? = (l[i]?).map (fun c => { c with title := t }) := by
  induction l generalizing i with
  | nil => simp at hi
  | cons c cs ih =>
    cases i with
    | zero => simp [setTitleAt]
    | succ n => simpa [setTitleAt] using ih n (by simpa using hi)

/-- C8: for a valid index, `edit_course(index, title)` succeeds and
changes only that course's title: the course count, every other course,
the edited course's plan list, and the blob store are all preserved. -/
theorem C8_edit_course_frame (env : Env) (st : St) (i : Int) (t : String)
    (hget : env.redisGetOk = true) (hset : env.redisSetOk = true)
    (hlo : 0 ≤ i) (hhi : i < (st.catalog.length : Int)) :
    (edit_course env st i t).1 = Except.ok (.redirect "/admin" 303) ∧
    (edit_course env st i t).2.catalog.length = st.catalog.length ∧
    (∀ j : Nat, j ≠ i.toNat →
      (edit_course env st i t).2.catalog[j]? = st.catalog[j]?) ∧
    ((edit_course env st i t).2.catalog[i.toNat]?).map Course.title = some t ∧
    ((edit_course env st i t).2.catalog[i.toNat]?).map Course.plans =
      (st.catalog[i.toNat]?).map Course.plans ∧
    (edit_course env st i t).2.blobs = st.blobs := by
  have hcourses : get_courses env st = st.catalog := by simp [get_courses, hget]
  have hb : 0 ≤ i ∧ i < ((get_courses env st).length : Int) := by
    rw [hcourses]
    exact ⟨hlo, hhi⟩
  have he : edit_course env st i t =
      (Except.ok (.redirect "/admin" 303),
       { st with catalog := setTitleAt st.catalog i.toNat t,
                 events := st.events ++
                   [.catalogWrite (setTitleAt st.catalog i.toNat t)] }) := by
    simp only [edit_course]
    rw [if_pos hb, hcourses]
    simp [saveTail, save_courses, hset]
  have hi : i.toNat < st.catalog.length := by omega
  obtain ⟨c, hc⟩ : ∃ c, st.catalog[i.toNat]? = some c :=
    ⟨st.catalog[i.toNat], List.getElem?_eq_getElem hi⟩
  rw [he]
  refine ⟨rfl, setTitleAt_length _ _ _, fun j hj => setTitleAt_getElem_ne _ _ _ _ hj,
    ?_, ?_, rfl⟩
  · rw [setTitleAt_getElem_self _ _ _ hi, hc]
    rfl
  · rw [setTitleAt_getElem_self _ _ _ hi, hc]
    rfl

/-- C8 witness: editing the only course of a one-course catalog. -/
theorem C8_edit_course_frame_witness :
    (0 : Int) ≤ 0 ∧ (0 : Int) < (stA.catalog.length : Int) ∧
    ((edit_course envOk stA 0 "Z").1 = Except.ok (.redirect "/admin" 303) ∧
      (edit_course envOk stA 0 "Z").2.catalog.length = stA.catalog.length ∧
      ((edit_course envOk stA 0 "Z").2.catalog[(0 : Int).toNat]?).map Course.title =
        some "Z" ∧
      ((edit_course envOk stA 0 "Z").2.catalog[(0 : Int).toNat]?).map Course.plans =
        (stA.catalog[(0 : Int).toNat]?).map Course.plans ∧
      (edit_course envOk stA 0 "Z").2.blobs = stA.blobs) := by
  have h := C8_edit_course_frame envOk stA 0 "Z" rfl rfl (by decide) (by decide)
  exact ⟨by decide, by decide, h.1, h.2.1, h.2.2.2.1, h.2.2.2.2.1, h.2.2.2.2.2⟩

/- ## Claim C6: upload completes and is verified before the catalog write -/

/-- C6: in `add_plan` with a file, a successful run uploads the object
and only then writes the catalog — the event trace is exactly the upload
followed by the single catalog write, the key is present in the blob
store afterwards, the 3-attempt `head_object` verification succeeded,
and the recorded plan points at that key.  Any failing run leaves the
stored catalog unchanged, so a failed upload never produces a plan
record; and if all 3 verification attempts fail the run is an error. -/
theorem C6_upload_before_record (env : Env) (st : St) (i : Int)
    (nm : String) (f : FileUpload) (hf : f.filename ≠ "") :
    (∀ resp, (add_plan env st i nm (some f)).1 = Except.ok resp →
      (add_plan env st i nm (some f)).2.events =
        st.events ++ [.s3Upload (sanitize_filename f.filename env.suffix6),
          .catalogWrite (add_plan env st i nm (some f)).2.catalog] ∧
      sanitize_filename f.filename env.suffix6 ∈
        (add_plan env st i nm (some f)).2.blobs ∧
      (List.range 3).any env.headOk = true ∧
      (add_plan env st i nm (some f)).2.catalog =
        appendPlanAt (get_courses env st) i.toNat
          { name := nm, filename := some (sanitize_filename f.filename env.suffix6) }) ∧
    (∀ e, (add_plan env st i nm (some f)).1 = Except.error e →
      (add_plan env st i nm (some f)).2.catalog = st.catalog) ∧
    ((List.range 3).all (fun k => !env.headOk k) = true →
      ∃ e, (add_plan env st i nm (some f)).1 = Except.error e) := by
  have trivialErr : ∀ (e : HErr) (stY : St), stY.catalog = st.catalog →
      add_plan env st i nm (some f) = (Except.error e, stY) →
      (∀ resp, (add_plan env st i nm (some f)).1 = Except.ok resp →
        (add_plan env st i nm (some f)).2.events =
          st.events ++ [.s3Upload (sanitize_filename f.filename env.suffix6),
            .catalogWrite (add_plan env st i nm (some f)).2.catalog] ∧
        sanitize_filename f.filename env.suffix6 ∈
          (add_plan env st i nm (some f)).2.blobs ∧
        (List.range 3).any env.headOk = true ∧
        (add_plan env st i nm (some f)).2.catalog =
          appendPlanAt (get_courses env st) i.toNat
            { name := nm,
              filename := some (sanitize_filename f.filename env.suffix6) }) ∧
      (∀ e', (add_plan env st i nm (some f)).1 = Except.error e' →
        (add_plan env st i nm (some f)).2.catalog = st.catalog) ∧
      ((List.range 3).all (fun k => !env.headOk k) = true →
        ∃ e', (add_plan env st i nm (some f)).1 = Except.error e') := by
    intro e stY hcat hfull
    rw [hfull]
    refine ⟨?_, ?_, ?_⟩
    · intro resp h
      cases h
    · intro e' _
      exact hcat
    · intro _
      exact ⟨e, rfl⟩
  rcases hchk : add_plan_checks (some f) with e | u
  · exact trivialErr e st rfl (by simp [add_plan, hchk])
  · by_cases hb : 0 ≤ i ∧ i < ((get_courses env st).length : Int)
    · by_cases hz : f.size = 0
      · exact trivialErr (.http 500) st rfl
          (by simp [add_plan, add_plan_core, hchk, hb, hf, hz])
      · by_cases hup : env.uploadOk = true
        · by_cases hh : (List.range 3).any env.headOk = true
          · by_cases hset : env.redisSetOk = true
            · have hfull : add_plan env st i nm (some f) =
                  (Except.ok (.redirect "/admin" 303),
                   { blobs := sanitize_filename f.filename env.suffix6 :: st.blobs,
                     catalog := appendPlanAt (get_courses env st) i.toNat
                       { name := nm,
                         filename := some (sanitize_filename f.filename env.suffix6) },
                     events := st.events ++
                       [.s3Upload (sanitize_filename f.filename env.suffix6),
                        .catalogWrite (appendPlanAt (get_courses env st) i.toNat
                          { name := nm,
                            filename := some (sanitize_filename f.filename env.suffix6) })] }) := by
                simp [add_plan, add_plan_core, hchk, hb, hf, hz, upload_to_s3, hup, hh,
                  saveTail, save_courses, hset]
              rw [hfull]
              refine ⟨?_, ?_, ?_⟩
              · intro resp _
                exact ⟨rfl, List.mem_cons_self _ _, hh, rfl⟩
              · intro e' h
                cases h
              · intro hall
                exfalso
                rw [List.any_eq_true] at hh
                obtain ⟨x, hx, hpx⟩ := hh
                rw [List.all_eq_true] at hall
                have := hall x hx
                simp [hpx] at this
            · exact trivialErr (.http 500)
                { st with
                    blobs := sanitize_filename f.filename env.suffix6 :: st.blobs,
                    events := st.events ++
                      [.s3Upload (sanitize_filename f.filename env.suffix6)] } rfl
                (by simp [add_plan, add_plan_core, hchk, hb, hf, hz, upload_to_s3,
                  hup, hh, saveTail, save_courses, hset])
          · exact trivialErr (.http 500)
              { st with
                  blobs := sanitize_filename f.filename env.suffix6 :: st.blobs,
                  events := st.events ++
                    [.s3Upload (sanitize_filename f.filename env.suffix6)] } rfl
              (by simp [add_plan, add_plan_core, hchk, hb, hf, hz, upload_to_s3, hup, hh])
        · exact trivialErr (.http 500) st rfl
            (by simp [add_plan, add_plan_core, hchk, hb, hf, hz, upload_to_s3, hup])
    · exact trivialErr (.http 404) st rfl (by simp [add_plan, hchk, hb])

/-- C6 witness: adding a plan with file `"new.pdf"` to the one-course
catalog uploads `"new_abc123.pdf"` and then writes the catalog. -/
theorem C6_upload_before_record_witness :
    ({ filename := "new.pdf", content_type := "application/pdf",
       size := 100 : FileUpload }.filename ≠ "") ∧
    (add_plan envOk stA 0 "W1"
        (some { filename := "new.pdf", content_type := "application/pdf",
                size := 100 })).2.events =
      stA.events ++ [.s3Upload (sanitize_filename "new.pdf" envOk.suffix6),
        .catalogWrite (add_plan envOk stA 0 "W1"
          (some { filename := "new.pdf", content_type := "application/pdf",
                  size := 100 })).2.catalog] ∧
    sanitize_filename "new.pdf" envOk.suffix6 ∈
      (add_plan envOk stA 0 "W1"
        (some { filename := "new.pdf", content_type := "application/pdf",
                size := 100 })).2.blobs := by
  have h := C6_upload_before_record envOk stA 0 "W1"
    { filename := "new.pdf", content_type := "application/pdf", size := 100 }
    (by decide)
  have h2 := h.1 (.redirect "/admin" 303) rfl
  exact ⟨by decide, h2.1, h2.2.1⟩

/- ## Claim C9: reorder via index permutation (spec-modelled) -/

theorem map_getD_range {α : Type} [Inhabited α] (l : List α) :
    (List.range l.length).map (fun k => l.getD k default) = l := by
  induction l with
  | nil => rfl
  | cons a tl ih =>
    rw [List.length_cons, List.range_succ_eq_map, List.map_cons, List.map_map]
    have hcomp : ((fun k => (a :: tl).getD k default) ∘ Nat.succ) =
        (fun k => tl.getD k default) := by
      funext k
      simp
    rw [hcomp, ih]
    simp

theorem setPlansAt_getElem_self (l : Catalog) (i : Nat) (ps : List Plan)
    (hi : i < l.length) :
    (setPlansAt l i ps)[i]? = (l[i]?).map (fun c => { c with plans := ps }) := by
  induction l generalizing i with
  | nil => simp at hi
  | cons c cs ih =>
    cases i with
    | zero => simp [setPlansAt]
    | succ n => simpa [setPlansAt] using ih n (by simpa using hi)

/-- C9 (settled against the spec-modelled reorder endpoints): a
permutation whose length differs from the current list length is
rejected with a validation error and the state — catalog, blobs and
events — is returned unchanged (no partial reorder); a length-matching
permutation succeeds and rebuilds the list so that position `j` holds
the element previously at `perm[j]`; and a true permutation of
`[0..n-1]` always leaves the course list a rearrangement of the original
one.  Both the course-level and the per-course plan-level endpoints are
covered. -/
theorem C9_reorder_permutation (env : Env) (st : St) (perm : List Nat) :
    (perm.length ≠ (get_courses env st).length →
      update_course_order env st perm = (Except.error (.http 400), st)) ∧
    (env.redisGetOk = true → env.redisSetOk = true →
      perm.length = st.catalog.length →
      (update_course_order env st perm).1 = Except.ok (.redirect "/admin" 303) ∧
      (update_course_order env st perm).2.catalog =
        perm.map (fun k => st.catalog.getD k default)) ∧
    (env.redisGetOk = true →
      perm.Perm (List.range st.catalog.length) →
      (update_course_order env st perm).2.catalog.Perm st.catalog) ∧
    (∀ i : Int, (0 ≤ i ∧ i < ((get_courses env st).length : Int)) →
      perm.length ≠
        ((((get_courses env st)[i.toNat]?).map Course.plans).getD []).length →
      update_plan_order env st i perm = (Except.error (.http 400), st)) ∧
    (∀ i : Int, 0 ≤ i → i < (st.catalog.length : Int) →
      env.redisGetOk = true → env.redisSetOk = true →
      perm.length = (((st.catalog[i.toNat]?).map Course.plans).getD []).length →
      (update_plan_order env st i perm).1 = Except.ok (.redirect "/admin" 303) ∧
      ((update_plan_order env st i perm).2.catalog[i.toNat]?).map Course.plans =
        some (perm.map (fun k =>
          ((((st.catalog[i.toNat]?).map Course.plans).getD []).getD k default)))) := by
  refine ⟨?_, ?_, ?_, ?_, ?_⟩
  · intro hne
    simp [update_course_order, reorderIdx, hne]
  · intro hget hset hlen
    have hfull : update_course_order env st perm =
        (Except.ok (.redirect "/admin" 303),
         { st with
             catalog := perm.map (fun k => st.catalog.getD k default),
             events := st.events ++
               [.catalogWrite (perm.map (fun k => st.catalog.getD k default))] }) := by
      simp [update_course_order, get_courses, hget, reorderIdx, hlen,
        saveTail, save_courses, hset]
    rw [hfull]
    exact ⟨rfl, rfl⟩
  · intro hget hperm
    have hlen : perm.length = st.catalog.length := by
      simpa using hperm.length_eq
    by_cases hset : env.redisSetOk = true
    · have hfull : update_course_order env st perm =
          (Except.ok (.redirect "/admin" 303),
           { st with
               catalog := perm.map (fun k => st.catalog.getD k default),
               events := st.events ++
                 [.catalogWrite (perm.map (fun k => st.catalog.getD k default))] }) := by
        simp [update_course_order, get_courses, hget, reorderIdx, hlen,
          saveTail, save_courses, hset]
      rw [hfull]
      have h1 := hperm.map (fun k => st.catalog.getD k default)
      rw [map_getD_range] at h1
      exact h1
    · have hfull : update_course_order env st perm =
          (Except.error (.http 500), st) := by
        simp [update_course_order, get_courses, hget, reorderIdx, hlen,
          saveTail, save_courses, hset]
      rw [hfull]
  · intro i hb hne
    simp only [update_plan_order]
    rw [if_pos hb]
    simp [reorderIdx, hne]
  · intro i hlo hhi hget hset hlen
    have hb : 0 ≤ i ∧ i < ((get_courses env st).length : Int) := by
      rw [get_courses, if_pos hget]
      exact ⟨hlo, hhi⟩
    have hfull : update_plan_order env st i perm =
        (Except.ok (.redirect "/admin" 303),
         { st with
             catalog := setPlansAt st.catalog i.toNat
               (perm.map (fun k =>
                 ((((st.catalog[i.toNat]?).map Course.plans).getD []).getD k default))),
             events := st.events ++
               [.catalogWrite (setPlansAt st.catalog i.toNat
                 (perm.map (fun k =>
                   ((((st.catalog[i.toNat]?).map Course.plans).getD []).getD k default))))] }) := by
      simp only [update_plan_order]
      rw [if_pos hb]
      simp [get_courses, hget, reorderIdx, hlen, saveTail, save_courses, hset]
    rw [hfull]
    have hi : i.toNat < st.catalog.length := by omega
    obtain ⟨c, hc⟩ : ∃ c, st.catalog[i.toNat]? = some c :=
      ⟨st.catalog[i.toNat], List.getElem?_eq_getElem hi⟩
    refine ⟨rfl, ?_⟩
    rw [setPlansAt_getElem_self _ _ _ hi, hc]
    rfl

/-- State with two courses, the first holding two plans. -/
def stP : St :=
  { blobs := [],
    catalog :=
      [{ title := "A",
         plans := [{ name := "x", filename := none },
                   { name := "y", filename := none }] },
       { title := "B", plans := [] }],
    events := [] }

/-- C9 witness: a too-short permutation is rejected with the state
unchanged, `[1, 0]` swaps the two courses, and `[1, 0]` swaps the two
plans of the first course. -/
theorem C9_reorder_permutation_witness :
    (update_course_order envOk stP [0] = (Except.error (.http 400), stP)) ∧
    ((update_course_order envOk stP [1, 0]).1 =
        Except.ok (.redirect "/admin" 303) ∧
      (update_course_order envOk stP [1, 0]).2.catalog =
        [1, 0].map (fun k => stP.catalog.getD k default)) ∧
    ((update_plan_order envOk stP 0 [1, 0]).1 =
        Except.ok (.redirect "/admin" 303) ∧
      ((update_plan_order envOk stP 0 [1, 0]).2.catalog[(0 : Int).toNat]?).map
          Course.plans =
        some ([1, 0].map (fun k =>
          ((((stP.catalog[(0 : Int).toNat]?).map Course.plans).getD []).getD
            k default)))) :=
  ⟨(C9_reorder_permutation envOk stP [0]).1 (by decide),
   (C9_reorder_permutation envOk stP [1, 0]).2.1 rfl rfl (by decide),
   (C9_reorder_permutation envOk stP [1, 0]).2.2.2.2 0 (by decide) (by decide)
     rfl rfl (by decide)⟩

/- ## Claim C10: download filename validation -/

/-- C10: the download endpoint rejects an empty filename or one
containing `".."` or `"/"` with a 400 and performs no blob-store or
local-file access (its event list is empty); any successfully served
path lies directly inside the temporary directory; and any request that
touches the stores at all had a nonempty filename free of `".."` and
`"/"`. -/
theorem C10_download_path_safety (blobs : List String) (filename : String) :
    ((filename = "" ∨ occursIn ['.', '.'] filename.toList = true ∨
        filename.toList.contains '/' = true) →
      download_pdf blobs filename = (Except.error (.http 400), [])) ∧
    (∀ p, (download_pdf blobs filename).1 = Except.ok p → WithinTempDir p) ∧
    ((download_pdf blobs filename).2 ≠ [] →
      filename ≠ "" ∧ occursIn ['.', '.'] filename.toList = false ∧
      filename.toList.contains '/' = false) := by
  by_cases hc : (filename == "" || occursIn ['.', '.'] filename.toList ||
      filename.toList.contains '/') = true
  · have hfull : download_pdf blobs filename = (Except.error (.http 400), []) := by
      simp only [download_pdf]
      rw [if_pos hc]
    rw [hfull]
    refine ⟨fun _ => rfl, ?_, ?_⟩
    · intro p h
      cases h
    · intro hne
      exact absurd rfl hne
  · have hd : ¬filename = "" ∧ occursIn ['.', '.'] filename.toList = false ∧
        filename.toList.contains '/' = false := by
      simp only [Bool.or_eq_true, beq_iff_eq, not_or, Bool.not_eq_true] at hc
      exact ⟨hc.1.1, hc.1.2, hc.2⟩
    have hrest : ∀ r, download_pdf blobs filename = r →
        ((filename = "" ∨ occursIn ['.', '.'] filename.toList = true ∨
            filename.toList.contains '/' = true) → r = (Except.error (.http 400), [])) ∧
        (∀ p, r.1 = Except.ok p → WithinTempDir p) ∧
        (r.2 ≠ [] → filename ≠ "" ∧ occursIn ['.', '.'] filename.toList = false ∧
          filename.toList.contains '/' = false) := by
      intro r hr
      refine ⟨?_, ?_, fun _ => ⟨hd.1, hd.2.1, hd.2.2⟩⟩
      · intro habs
        rcases habs with h1 | h2 | h3
        · exact absurd h1 hd.1
        · rw [hd.2.1] at h2
          cases h2
        · rw [hd.2.2] at h3
          cases h3
      · intro p hp
        by_cases hm : filename ∈ blobs
        · have : download_pdf blobs filename =
              (Except.ok (temp_dir ++ "/" ++ filename), [.s3Download filename]) := by
            simp only [download_pdf]
            rw [if_neg hc]
            simp [hm]
          rw [hr] at this
          rw [this] at hp
          cases hp
          exact ⟨filename, rfl, hd.1, hd.2.2, hd.2.1⟩
        · have : download_pdf blobs filename =
              (Except.error (.http 500), [.s3Download filename]) := by
            simp only [download_pdf]
            rw [if_neg hc]
            simp [hm]
          rw [hr] at this
          rw [this] at hp
          cases hp
    exact hrest (download_pdf blobs filename) rfl

/-- C10 witness: `".."` is rejected before any store access, and a
served file lands on a path directly under `/tmp`. -/
theorem C10_download_path_safety_witness :
    download_pdf ["ok.pdf"] ".." = (Except.error (.http 400), []) ∧
    WithinTempDir "/tmp/ok.pdf" :=
  ⟨(C10_download_path_safety ["ok.pdf"] "..").1 (Or.inr (Or.inl (by decide))),
   (C10_download_path_safety ["ok.pdf"] "ok.pdf").2.1 "/tmp/ok.pdf" rfl⟩

end CourseApp
